import Mathlib

/-!
Verification of the zone-pattern resolver and operation-polling flow of
`cloud/run.py` (hatchet cloud submission script).

The script `cloud/run.py` parses command-line arguments, builds a pipeline
request body whose placement constraint is produced by
`defaults.get_zones(args.zones)`, submits it, and — when `--poll-interval`
is positive — hands the returned operation to `poller.poll`.  The
`pipelines_pylib` modules (`defaults`, `poller`) are imported by the script
but their sources are not part of the repository snapshot; they are
modelled here from the specification, while the request body and control
flow of `run.py` are embedded from the source.
-/

/-- Errors of the zone resolver: a literal zone pattern absent from the known
zone set, or a resolution whose union of matches is empty. -/
inductive ResolveError where
  | invalidZone (pattern : String) : ResolveError
  | emptyResult : ResolveError
  deriving Repr, DecidableEq

/-- Modelled from the spec: a pattern is a wildcard when it is a wildcard
expression ending in the character `*` (such as "us-*" or "*"); otherwise it
is a literal zone identifier. -/
def isWildcard (p : String) : Bool := p.data.getLast? == some '*'

/-- Modelled from the spec: the non-wildcard portion of a wildcard pattern,
i.e. the pattern with its trailing `*` removed. -/
def wildcardStem (p : String) : List Char := p.data.dropLast

/-- Modelled from the spec: a pattern matches a zone when either the pattern
is a wildcard and its stem is a prefix of the zone identifier (case-sensitive,
exact on the non-wildcard portion; the bare "*" has the empty stem and matches
every zone), or the pattern is a literal equal to the zone. -/
def matchesPattern (p z : String) : Bool :=
  if isWildcard p then (wildcardStem p).isPrefixOf z.data else p == z

/-- Modelled from the spec: `defaults.get_zones`, the ZoneResolver contract
`resolve(patterns, zoneSet)`, absent from the repository snapshot.  Literal
patterns are verified for membership in the zone set, failing immediately
with `InvalidZoneError` on the first absent one; otherwise all matches are
unioned into a duplicate-free list ordered by first occurrence in the zone
set, and an empty union fails with `EmptyResultError`. -/
def get_zones (patterns : List String) (zoneSet : List String) :
    Except ResolveError (List String) :=
  match patterns.find? (fun p => !isWildcard p && !zoneSet.contains p) with
  | some p => .error (.invalidZone p)
  | none =>
      if (zoneSet.filter (fun z => patterns.any (fun p => matchesPattern p z))).isEmpty
      then .error .emptyResult
      else .ok (zoneSet.filter (fun z => patterns.any (fun p => matchesPattern p z)))

/-- A snapshot of a long-running operation handle: an opaque name, a
completion flag, and optional error / response / metadata payloads, as
described for `OperationHandle`. -/
structure Operation where
  name : String
  done : Bool
  error : Option String := none
  response : Option String := none
  metadata : Option String := none
  deriving Repr, DecidableEq

/-- An observable side effect of one poll session: a delay of a given number
of seconds, or a status fetch returning a fresh snapshot. -/
inductive PollEvent where
  | sleep (seconds : Int) : PollEvent
  | fetched (snapshot : Operation) : PollEvent
  deriving Repr, DecidableEq

/-- The snapshots returned by the status fetches of a trace, in order. -/
def fetchedOps (tr : List PollEvent) : List Operation :=
  tr.filterMap (fun e => match e with | .fetched s => some s | .sleep _ => none)

/-- The number of status fetches in a trace. -/
def countFetches (tr : List PollEvent) : Nat := (fetchedOps tr).length

/-- The number of sleep events in a trace. -/
def countSleeps (tr : List PollEvent) : Nat :=
  tr.countP (fun e => match e with | .sleep _ => true | .fetched _ => false)

/-- The suffix of a trace strictly after its first status fetch. -/
def afterFirstFetch : List PollEvent → List PollEvent
  | [] => []
  | .fetched _ :: rest => rest
  | .sleep _ :: rest => afterFirstFetch rest

/-- The sleeps that intervene between status fetches: sleep events occurring
strictly after the first fetch (every trace of the poller ends with a fetch,
so these all lie between two fetches). -/
def interveningSleeps (tr : List PollEvent) : Nat := countSleeps (afterFirstFetch tr)

/-- Modelled from the spec: the loop of `poller.poll`, absent from the
repository snapshot.  While the current snapshot is not done, each iteration
sleeps `interval` seconds and then issues one status fetch, replacing the
local snapshot with the freshly fetched one; the loop terminates exactly when
a snapshot reports `done`, returning it.  The service is modelled as the
sequence `fetchFn` of snapshots its successive status fetches return.  The
loop has no built-in bound, so it is given fuel; `none` models divergence
(the service never reports done within the fuel). -/
def pollLoop (fetchFn : Nat → Operation) (interval : Int) :
    Nat → Operation → Nat → Option (List PollEvent × Operation)
  | 0, op, _ => if op.done then some ([], op) else none
  | fuel + 1, op, n =>
      if op.done then some ([], op)
      else
        match pollLoop fetchFn interval fuel (fetchFn n) (n + 1) with
        | some (tr, fin) =>
            some (PollEvent.sleep interval :: PollEvent.fetched (fetchFn n) :: tr, fin)
        | none => none

/-- Modelled from the spec: `poller.poll(service, operation, poll_interval)`,
returning the trace of side effects together with the final snapshot. -/
def poll (fetchFn : Nat → Operation) (operation : Operation) (interval : Int)
    (fuel : Nat) : Option (List PollEvent × Operation) :=
  pollLoop fetchFn interval fuel operation 0

/-- The parsed command-line arguments of `cloud/run.py`: `--project`,
`--disk-size`, `--zones` (one or more patterns), `--output`, `--logging`,
`--poll-interval`.  There is no `--input` flag (it is commented out in the
source). -/
structure Args where
  project : String
  disk_size : Int
  zones : List String
  output : String
  logging : String
  poll_interval : Int
  deriving Repr, DecidableEq

/-- Argument parsing: every flag is required except `--poll-interval`, which
defaults to 0 (meaning "do not poll") when not supplied. -/
def parseArgs (project : String) (disk_size : Int) (zones : List String)
    (output : String) (logging : String) (poll_interval : Option Int) : Args :=
  { project := project, disk_size := disk_size, zones := zones,
    output := output, logging := logging,
    poll_interval := poll_interval.getD 0 }

/-- A `localCopy` clause of a pipeline parameter. -/
structure LocalCopy where
  path : String
  disk : String
  deriving Repr, DecidableEq

/-- An input or output parameter of the ephemeral pipeline. -/
structure PipelineParameter where
  name : String
  description : String
  localCopy : LocalCopy
  deriving Repr, DecidableEq

/-- The `docker` clause of the ephemeral pipeline. -/
structure DockerSpec where
  imageName : String
  cmd : String
  deriving Repr, DecidableEq

/-- A disk of the ephemeral pipeline's `resources`. -/
structure TemplateDisk where
  name : String
  autoDelete : Bool
  mountPoint : String
  deriving Repr, DecidableEq

/-- The `resources` clause of the ephemeral pipeline. -/
structure TemplateResources where
  disks : List TemplateDisk
  deriving Repr, DecidableEq

/-- The `ephemeralPipeline` clause of the request body. -/
structure EphemeralPipeline where
  projectId : String
  name : String
  description : String
  resources : TemplateResources
  docker : DockerSpec
  inputParameters : List PipelineParameter
  outputParameters : List PipelineParameter
  deriving Repr, DecidableEq

/-- A disk of the `pipelineArgs.resources` clause. -/
structure RunDisk where
  name : String
  sizeGb : Int
  deriving Repr, DecidableEq

/-- The `pipelineArgs.resources` clause: RAM, the expanded zone list
(placement constraints), and the data disk size. -/
structure RunResources where
  minimumRamGb : Int
  zones : List String
  disks : List RunDisk
  deriving Repr, DecidableEq

/-- The `pipelineArgs.logging` clause. -/
structure LoggingSpec where
  gcsPath : String
  deriving Repr, DecidableEq

/-- The `pipelineArgs` clause of the request body. -/
structure PipelineArgs where
  projectId : String
  resources : RunResources
  inputs : List (String × String)
  outputs : List (String × String)
  logging : LoggingSpec
  deriving Repr, DecidableEq

/-- The request body passed to `service.pipelines().run`. -/
structure RequestBody where
  ephemeralPipeline : EphemeralPipeline
  pipelineArgs : PipelineArgs
  deriving Repr, DecidableEq

/-- The request body built by `cloud/run.py` (lines 86-247): the
`ephemeralPipeline` template and the `pipelineArgs` for this run.  The zone
placement constraint `pipelineArgs.resources.zones` is populated from
`defaults.get_zones(args.zones)` (modelled by `get_zones`, which is injected
with the zone table `zoneSet`); a resolution error aborts body construction. -/
def buildBody (args : Args) (zoneSet : List String) :
    Except ResolveError RequestBody :=
  match get_zones args.zones zoneSet with
  | .error e => .error e
  | .ok zs => .ok
      { ephemeralPipeline :=
          { projectId := args.project
            name := "samtools"
            description := "Run samtools on one or more files"
            resources :=
              { disks := [{ name := "datadisk", autoDelete := true,
                            mountPoint := "/mnt/data" }] }
            docker :=
              { imageName := "gcr.io/durable-tracer-294016/hatchet"
                cmd := "wget https://hgdownload.soe.ucsc.edu/goldenPath/hg19/bigZips/hg19.fa.gz -O /mnt/data/hg19.fa.gz && gunzip /mnt/data/hg19.fa.gz && $HATCHET_PATHS_SAMTOOLS/samtools faidx /mnt/data/hg19.fa && $HATCHET_PATHS_SAMTOOLS/samtools dict /mnt/data/hg19.fa > /mnt/data/hg19.dict && export HATCHET_PATHS_REFERENCE=/mnt/data/hg19.fa && BINSIZE=50kb bash ./_run.sh" }
            inputParameters :=
              [ { name := "normalbam"
                  description := "Cloud Storage path of Normal BAM file"
                  localCopy := { path := "normal/", disk := "datadisk" } },
                { name := "normalbai"
                  description := "Cloud Storage path of Normal BAI file"
                  localCopy := { path := "normal/", disk := "datadisk" } },
                { name := "tumorbam"
                  description := "Cloud Storage path of Tumor BAM file"
                  localCopy := { path := "tumor/", disk := "datadisk" } },
                { name := "tumorbai"
                  description := "Cloud Storage path of Tumor BAI file"
                  localCopy := { path := "tumor/", disk := "datadisk" } } ]
            outputParameters :=
              [ { name := "outputPath"
                  description := "Cloud Storage path for output"
                  localCopy := { path := "output/*", disk := "datadisk" } } ] }
        pipelineArgs :=
          { projectId := args.project
            resources :=
              { minimumRamGb := 16
                zones := zs
                disks := [{ name := "datadisk", sizeGb := args.disk_size }] }
            inputs :=
              [ ("normalbam", "gs://durable-tracer-294016-hatchetbucket/normal.bam"),
                ("normalbai", "gs://durable-tracer-294016-hatchetbucket/normal.bam.bai"),
                ("tumorbam", "gs://durable-tracer-294016-hatchetbucket/bulk_Noneclone1_09clone0_01normal.sorted.bam"),
                ("tumorbai", "gs://durable-tracer-294016-hatchetbucket/bulk_Noneclone1_09clone0_01normal.sorted.bam.bai") ]
            outputs := [("outputPath", args.output)]
            logging := { gcsPath := args.logging } } }

/-- The outcome of one run of the script that reaches submission: the
submitted body, the operation handle returned by the submission call, and —
when polling was requested — the result of the poll session (`none` in
`pollResult` means the poller was never invoked). -/
structure RunResult where
  body : RequestBody
  operation : Operation
  pollResult : Option (Option (List PollEvent × Operation))
  deriving Repr, DecidableEq

/-- The control flow of `cloud/run.py`: build the request body (resolving the
zone patterns; a resolution error aborts the flow before any submission),
submit it obtaining an operation handle, and invoke `poller.poll` if and only
if `args.poll_interval > 0` (line 254).  The submission call is modelled by
the injected function `submit`, the status-fetch service by `fetchFn`. -/
def runScript (args : Args) (zoneSet : List String)
    (submit : RequestBody → Operation) (fetchFn : Nat → Operation)
    (fuel : Nat) : Except ResolveError RunResult :=
  match buildBody args zoneSet with
  | .error e => .error e
  | .ok body =>
      let operation := submit body
      .ok { body := body
            operation := operation
            pollResult :=
              if args.poll_interval > 0 then
                some (poll fetchFn operation args.poll_interval fuel)
              else none }

theorem star_data_eq : ("*" : String).data = ['*'] := rfl

theorem isWildcard_append_star (p : String) : isWildcard (p ++ "*") = true := by
  simp [isWildcard, String.data_append, star_data_eq, List.getLast?_concat]

theorem wildcardStem_append_star (p : String) : wildcardStem (p ++ "*") = p.data := by
  simp [wildcardStem, String.data_append, star_data_eq, List.dropLast_concat]

theorem matchesPattern_append_star (p z : String) :
    matchesPattern (p ++ "*") z = p.data.isPrefixOf z.data := by
  simp [matchesPattern, isWildcard_append_star, wildcardStem_append_star]

theorem get_zones_ok_elim (P Z r : List String) (h : get_zones P Z = .ok r) :
    P.find? (fun p => !isWildcard p && !Z.contains p) = none ∧
    r = Z.filter (fun z => P.any (fun p => matchesPattern p z)) ∧
    (Z.filter (fun z => P.any (fun p => matchesPattern p z))).isEmpty = false := by
  unfold get_zones at h
  split at h
  · exact absurd h (by simp)
  · split at h
    · exact absurd h (by simp)
    · rename_i hfind hne
      refine ⟨hfind, ?_, ?_⟩
      · exact (Except.ok.inj h).symm
      · exact Bool.not_eq_true _ ▸ hne

/-- C2: for every zone set Z and a single prefix-wildcard pattern "p*",
`get_zones` returns exactly the zones of Z whose identifier starts with p
(case-sensitive, exact match on the prefix), in the order of Z; if that set
is empty it fails with `EmptyResultError`, which is a condition distinct from
`InvalidZoneError`. -/
theorem get_zones_prefix_wildcard (Z : List String) (p : String) :
    get_zones [p ++ "*"] Z =
      (if (Z.filter (fun z => p.data.isPrefixOf z.data)).isEmpty
       then .error .emptyResult
       else .ok (Z.filter (fun z => p.data.isPrefixOf z.data))) ∧
    ∀ q, (ResolveError.emptyResult : ResolveError) ≠ ResolveError.invalidZone q := by
  constructor
  · have hfind : ([p ++ "*"] : List String).find?
        (fun q => !isWildcard q && !Z.contains q) = none := by
      rw [List.find?_cons_of_neg _ (by simp [isWildcard_append_star])]
      exact List.find?_nil ..
    have hfilter : Z.filter (fun z => ([p ++ "*"] : List String).any
        (fun q => matchesPattern q z)) = Z.filter (fun z => p.data.isPrefixOf z.data) := by
      apply List.filter_congr
      intro z _
      simp [List.any, matchesPattern_append_star]
    unfold get_zones
    rw [hfind, hfilter]
  · intro q h
    cases h

/-- C3: for every non-empty zone set Z, resolving the pattern list consisting
only of "*" returns exactly Z, in Z's own order. -/
theorem get_zones_star_returns_all (Z : List String) (hZ : Z ≠ []) :
    get_zones ["*"] Z = .ok Z := by
  have hfind : (["*"] : List String).find?
      (fun q => !isWildcard q && !Z.contains q) = none := by
    rw [List.find?_cons_of_neg _ (by simp [show isWildcard ("*") = true from rfl])]
    exact List.find?_nil ..
  have hfilter : Z.filter (fun z => (["*"] : List String).any
      (fun q => matchesPattern q z)) = Z := by
    apply List.filter_eq_self.mpr
    intro z _
    have h1 : matchesPattern ("*") z = true := by
      unfold matchesPattern
      rw [show isWildcard ("*") = true from rfl, if_pos rfl,
        show wildcardStem ("*") = ([] : List Char) from rfl]
      simp [List.isPrefixOf]
    simp [h1]
  unfold get_zones
  rw [hfind, hfilter]
  cases Z with
  | nil => exact absurd rfl hZ
  | cons a as => rfl

/-- Witness for C3 at Z = ["us-central1-a", "europe-west1-b"]. -/
theorem get_zones_star_returns_all_witness :
    get_zones ["*"] ["us-central1-a", "europe-west1-b"] =
      .ok ["us-central1-a", "europe-west1-b"] :=
  get_zones_star_returns_all ["us-central1-a", "europe-west1-b"] (by simp)

/-- C1: for every zone set Z and every pattern list containing at least one
literal (non-wildcard) pattern absent from Z, `get_zones` fails with
`InvalidZoneError` (carrying no zone list, so there is no ResolvedZoneList),
and the whole script run fails with that same error for every possible
submission service — in particular the result never depends on the
submission function, so no submission call is ever issued. -/
theorem get_zones_invalid_literal_aborts (P Z : List String) (l : String)
    (hmem : l ∈ P) (hlit : isWildcard l = false) (habs : l ∉ Z) :
    ∃ q, isWildcard q = false ∧ q ∉ Z ∧
      get_zones P Z = .error (.invalidZone q) ∧
      ∀ (args : Args) (submit : RequestBody → Operation)
        (fetchFn : Nat → Operation) (fuel : Nat), args.zones = P →
        runScript args Z submit fetchFn fuel = .error (.invalidZone q) := by
  have hglobal : (P.find? (fun p => !isWildcard p && !Z.contains p)).isSome := by
    rw [List.find?_isSome]
    refine ⟨l, hmem, ?_⟩
    simp [hlit, habs]
  obtain ⟨q, hq⟩ := Option.isSome_iff_exists.mp hglobal
  have hqprop : (!isWildcard q && !Z.contains q) = true := by
    have h := List.find?_some hq
    simpa using h
  have hq1 : isWildcard q = false := by
    rcases Bool.and_eq_true .. |>.mp hqprop with ⟨h1, _⟩
    simpa using h1
  have hq2 : q ∉ Z := by
    rcases Bool.and_eq_true .. |>.mp hqprop with ⟨_, h2⟩
    simpa using h2
  have hgz : get_zones P Z = .error (.invalidZone q) := by
    unfold get_zones
    rw [hq]
  refine ⟨q, hq1, hq2, hgz, ?_⟩
  intro args submit fetchFn fuel hzs
  unfold runScript buildBody
  rw [hzs, hgz]

/-- Witness for C1: the literal "nope-1-a" is not in the zone set
["us-central1-a"], so resolution and the whole run abort with
`InvalidZoneError`. -/
theorem get_zones_invalid_literal_aborts_witness :
    ∃ q, isWildcard q = false ∧ q ∉ (["us-central1-a"] : List String) ∧
      get_zones ["nope-1-a"] ["us-central1-a"] = .error (.invalidZone q) ∧
      ∀ (args : Args) (submit : RequestBody → Operation)
        (fetchFn : Nat → Operation) (fuel : Nat), args.zones = ["nope-1-a"] →
        runScript args ["us-central1-a"] submit fetchFn fuel =
          .error (.invalidZone q) :=
  get_zones_invalid_literal_aborts ["nope-1-a"] ["us-central1-a"] "nope-1-a"
    (by simp) rfl (by simp)

/-- C4: whenever resolution succeeds on a duplicate-free zone set, the
returned list is duplicate-free, every element belongs to the zone set, the
elements appear in first-occurrence-in-zoneSet order (the result is a
sublist of the zone set), and any reordering of the pattern list yields the
identical ordered result. -/
theorem get_zones_result_normalized (P Z r : List String) (hZ : Z.Nodup)
    (h : get_zones P Z = .ok r) :
    r.Nodup ∧ (∀ z ∈ r, z ∈ Z) ∧ r.Sublist Z ∧
    ∀ P' : List String, P'.Perm P → get_zones P' Z = .ok r := by
  obtain ⟨hfind, hr, hne⟩ := get_zones_ok_elim P Z r h
  subst hr
  refine ⟨hZ.filter _, ?_, List.filter_sublist Z, ?_⟩
  · intro z hz
    exact (List.mem_filter.mp hz).1
  · intro P' hperm
    have hany : ∀ z : String,
        (P'.any fun p => matchesPattern p z) = (P.any fun p => matchesPattern p z) := by
      intro z
      rw [Bool.eq_iff_iff]
      simp only [List.any_eq_true]
      exact ⟨fun ⟨x, hx, h2⟩ => ⟨x, hperm.mem_iff.mp hx, h2⟩,
             fun ⟨x, hx, h2⟩ => ⟨x, hperm.mem_iff.mpr hx, h2⟩⟩
    have hfind' : P'.find? (fun p => !isWildcard p && !Z.contains p) = none := by
      rw [List.find?_eq_none] at hfind ⊢
      intro x hx
      exact hfind x (hperm.mem_iff.mp hx)
    have hfilter : Z.filter (fun z => P'.any fun p => matchesPattern p z)
        = Z.filter (fun z => P.any fun p => matchesPattern p z) :=
      List.filter_congr (fun z _ => hany z)
    unfold get_zones
    rw [hfind', hfilter]
    simp [hne]

/-- Witness for C4 at P = ["us-*", "europe-west1-b"] and
Z = ["us-central1-a", "europe-west1-b"], whose resolution succeeds with
["us-central1-a", "europe-west1-b"]. -/
theorem get_zones_result_normalized_witness :
    (["us-central1-a", "europe-west1-b"] : List String).Nodup ∧
    (∀ z ∈ (["us-central1-a", "europe-west1-b"] : List String),
      z ∈ (["us-central1-a", "europe-west1-b"] : List String)) ∧
    (["us-central1-a", "europe-west1-b"] : List String).Sublist
      ["us-central1-a", "europe-west1-b"] ∧
    ∀ P' : List String, P'.Perm ["us-*", "europe-west1-b"] →
      get_zones P' ["us-central1-a", "europe-west1-b"] =
        .ok ["us-central1-a", "europe-west1-b"] :=
  get_zones_result_normalized ["us-*", "europe-west1-b"]
    ["us-central1-a", "europe-west1-b"] ["us-central1-a", "europe-west1-b"]
    (by simp) rfl

theorem pollLoop_done (fetchFn : Nat → Operation) (k : Int) (fuel : Nat)
    (op : Operation) (n : Nat) (hdone : op.done = true) :
    pollLoop fetchFn k fuel op n = some ([], op) := by
  cases fuel <;> simp [pollLoop, hdone]

theorem pollLoop_elim (fetchFn : Nat → Operation) (k : Int) :
    ∀ (fuel : Nat) (op : Operation) (start : Nat) (tr : List PollEvent)
      (fin : Operation),
      pollLoop fetchFn k fuel op start = some (tr, fin) →
      fin.done = true ∧
      (∀ s ∈ (fetchedOps tr).dropLast, s.done = false) ∧
      ((tr = [] ∧ fin = op) ∨
        (op.done = false ∧ (fetchedOps tr).getLast? = some fin)) := by
  intro fuel
  induction fuel with
  | zero =>
      intro op start tr fin h
      by_cases hop : op.done
      · simp only [pollLoop, hop, if_pos, Option.some.injEq, Prod.mk.injEq] at h
        obtain ⟨rfl, rfl⟩ := h
        exact ⟨hop, by simp [fetchedOps], Or.inl ⟨rfl, rfl⟩⟩
      · simp [pollLoop, hop] at h
  | succ f ih =>
      intro op start tr fin h
      by_cases hop : op.done
      · simp only [pollLoop, hop, if_pos, Option.some.injEq, Prod.mk.injEq] at h
        obtain ⟨rfl, rfl⟩ := h
        exact ⟨hop, by simp [fetchedOps], Or.inl ⟨rfl, rfl⟩⟩
      · simp only [pollLoop, hop, if_neg, Bool.false_eq_true] at h
        cases hrec : pollLoop fetchFn k f (fetchFn start) (start + 1) with
        | none => rw [hrec] at h; simp at h
        | some pr =>
            obtain ⟨tr', fin'⟩ := pr
            obtain ⟨hfin', hdrop', hdisj'⟩ := ih (fetchFn start) (start + 1) tr' fin' hrec
            rw [hrec] at h
            simp only [Option.some.injEq, Prod.mk.injEq] at h
            obtain ⟨rfl, rfl⟩ := h
            have hfe : fetchedOps (PollEvent.sleep k :: PollEvent.fetched (fetchFn start) :: tr')
                = fetchFn start :: fetchedOps tr' := by simp [fetchedOps]
            rcases hdisj' with ⟨rfl, rfl⟩ | ⟨hopf, hlast'⟩
            · refine ⟨hfin', ?_, Or.inr ⟨by simpa using hop, ?_⟩⟩
              · rw [hfe]
                simp [fetchedOps]
              · rw [hfe]
                simp [fetchedOps]
            · have hne' : fetchedOps tr' ≠ [] := by
                intro hnil
                rw [hnil] at hlast'
                cases hlast'
              refine ⟨hfin', ?_, Or.inr ⟨by simpa using hop, ?_⟩⟩
              · rw [hfe]
                intro s hs
                cases hL : fetchedOps tr' with
                | nil => exact absurd hL hne'
                | cons b t =>
                    rw [hL, List.dropLast_cons₂, List.mem_cons] at hs
                    rcases hs with rfl | hs
                    · exact hopf
                    · exact hdrop' s (by rw [hL]; exact hs)
            
              · rw [hfe]
                cases hL : fetchedOps tr' with
                | nil => exact absurd hL hne'
                | cons b t =>
                    rw [← hL, ← hlast']
                    rw [hL]
                    rfl

/-- C6: within one poll session, the done flags of the fetched snapshots are
monotonic (never true and later false), no status fetch is issued strictly
after the first snapshot with done = true (any done snapshot is the last
fetch of the session), and the poller returns that terminal snapshot. -/
theorem poll_done_monotonic (fetchFn : Nat → Operation) (init : Operation)
    (k : Int) (fuel : Nat) (tr : List PollEvent) (fin : Operation)
    (h : poll fetchFn init k fuel = some (tr, fin)) :
    (∀ i j (hi : i < (fetchedOps tr).length) (hj : j < (fetchedOps tr).length),
      i ≤ j → ((fetchedOps tr).get ⟨i, hi⟩).done = true →
      ((fetchedOps tr).get ⟨j, hj⟩).done = true) ∧
    (∀ i (hi : i < (fetchedOps tr).length),
      ((fetchedOps tr).get ⟨i, hi⟩).done = true →
      i = (fetchedOps tr).length - 1) ∧
    fin.done = true ∧
    (fetchedOps tr ≠ [] → (fetchedOps tr).getLast? = some fin) := by
  unfold poll at h
  obtain ⟨hfin, hdrop, hdisj⟩ := pollLoop_elim fetchFn k fuel init 0 tr fin h
  have hpre : ∀ i (hi : i < (fetchedOps tr).length),
      i < (fetchedOps tr).length - 1 → ((fetchedOps tr).get ⟨i, hi⟩).done = false := by
    intro i hi hlt
    have hd : i < (fetchedOps tr).dropLast.length := by
      rw [List.length_dropLast]; exact hlt
    have hmem : (fetchedOps tr).dropLast[i] ∈ (fetchedOps tr).dropLast :=
      List.getElem_mem hd
    have heq : (fetchedOps tr).dropLast[i] = (fetchedOps tr)[i] :=
      List.getElem_dropLast ..
    have := hdrop _ hmem
    rw [heq] at this
    rw [List.get_eq_getElem]
    exact this
  have hsecond : ∀ i (hi : i < (fetchedOps tr).length),
      ((fetchedOps tr).get ⟨i, hi⟩).done = true →
      i = (fetchedOps tr).length - 1 := by
    intro i hi hdone
    by_contra hne
    have hlt : i < (fetchedOps tr).length - 1 := by omega
    rw [hpre i hi hlt] at hdone
    cases hdone
  refine ⟨?_, hsecond, hfin, ?_⟩
  · intro i j hi hj hij hdone
    have h1 : i = (fetchedOps tr).length - 1 := hsecond i hi hdone
    have h2 : j = i := by omega
    subst h2
    exact hdone
  · intro hne
    rcases hdisj with ⟨rfl, rfl⟩ | ⟨_, hl⟩
    · exact absurd rfl hne
    · exact hl

/-- Witness for C6: a service already done on its first fetch; the session
records one fetch, which is terminal and returned. -/
theorem poll_done_monotonic_witness :
    (∀ i j (hi : i < (fetchedOps [PollEvent.sleep 5,
        PollEvent.fetched { name := "op1", done := true }]).length)
      (hj : j < (fetchedOps [PollEvent.sleep 5,
        PollEvent.fetched { name := "op1", done := true }]).length),
      i ≤ j →
      ((fetchedOps [PollEvent.sleep 5,
        PollEvent.fetched { name := "op1", done := true }]).get ⟨i, hi⟩).done = true →
      ((fetchedOps [PollEvent.sleep 5,
        PollEvent.fetched { name := "op1", done := true }]).get ⟨j, hj⟩).done = true) ∧
    (∀ i (hi : i < (fetchedOps [PollEvent.sleep 5,
        PollEvent.fetched { name := "op1", done := true }]).length),
      ((fetchedOps [PollEvent.sleep 5,
        PollEvent.fetched { name := "op1", done := true }]).get ⟨i, hi⟩).done = true →
      i = (fetchedOps [PollEvent.sleep 5,
        PollEvent.fetched { name := "op1", done := true }]).length - 1) ∧
    ({ name := "op1", done := true } : Operation).done = true ∧
    (fetchedOps [PollEvent.sleep 5,
        PollEvent.fetched { name := "op1", done := true }] ≠ [] →
      (fetchedOps [PollEvent.sleep 5,
        PollEvent.fetched { name := "op1", done := true }]).getLast? =
        some ({ name := "op1", done := true } : Operation)) :=
  poll_done_monotonic (fun _ => { name := "op1", done := true })
    { name := "op1", done := false } 5 2
    [PollEvent.sleep 5, PollEvent.fetched { name := "op1", done := true }]
    ({ name := "op1", done := true } : Operation) rfl

/-- The trace of a poll session of exactly `n` iterations starting at fetch
index `start`: each iteration contributes one sleep of `k` seconds followed
by one status fetch. -/
def cadenceTrace (fetchFn : Nat → Operation) (k : Int) : Nat → Nat → List PollEvent
  | _, 0 => []
  | start, n + 1 =>
      PollEvent.sleep k :: PollEvent.fetched (fetchFn start) ::
        cadenceTrace fetchFn k (start + 1) n

theorem fetchedOps_sleep_cons (s : Int) (tr : List PollEvent) :
    fetchedOps (PollEvent.sleep s :: tr) = fetchedOps tr := rfl

theorem fetchedOps_fetched_cons (op : Operation) (tr : List PollEvent) :
    fetchedOps (PollEvent.fetched op :: tr) = op :: fetchedOps tr := rfl

theorem countSleeps_sleep_cons (s : Int) (tr : List PollEvent) :
    countSleeps (PollEvent.sleep s :: tr) = countSleeps tr + 1 := by
  simp [countSleeps, List.countP_cons]

theorem countSleeps_fetched_cons (op : Operation) (tr : List PollEvent) :
    countSleeps (PollEvent.fetched op :: tr) = countSleeps tr := by
  simp [countSleeps, List.countP_cons]

theorem countFetches_cadenceTrace (fetchFn : Nat → Operation) (k : Int) :
    ∀ (n start : Nat), countFetches (cadenceTrace fetchFn k start n) = n := by
  intro n
  induction n with
  | zero => intro start; rfl
  | succ m ih =>
      intro start
      simp only [cadenceTrace, countFetches, fetchedOps_sleep_cons,
        fetchedOps_fetched_cons, List.length_cons]
      have := ih (start + 1)
      rw [countFetches] at this
      omega

theorem countSleeps_cadenceTrace (fetchFn : Nat → Operation) (k : Int) :
    ∀ (n start : Nat), countSleeps (cadenceTrace fetchFn k start n) = n := by
  intro n
  induction n with
  | zero => intro start; rfl
  | succ m ih =>
      intro start
      simp only [cadenceTrace, countSleeps_sleep_cons, countSleeps_fetched_cons]
      rw [ih (start + 1)]

theorem sleep_mem_cadenceTrace (fetchFn : Nat → Operation) (k : Int) :
    ∀ (n start : Nat) (s : Int),
      PollEvent.sleep s ∈ cadenceTrace fetchFn k start n → s = k := by
  intro n
  induction n with
  | zero => intro start s hs; cases hs
  | succ m ih =>
      intro start s hs
      simp only [cadenceTrace, List.mem_cons] at hs
      rcases hs with hs | hs | hs
      · exact (PollEvent.sleep.inj hs)
      · cases hs
      · exact ih (start + 1) s hs

theorem interveningSleeps_cadenceTrace (fetchFn : Nat → Operation) (k : Int)
    (n start : Nat) :
    interveningSleeps (cadenceTrace fetchFn k start (n + 1)) = n := by
  have h1 : afterFirstFetch (cadenceTrace fetchFn k start (n + 1)) =
      cadenceTrace fetchFn k (start + 1) n := rfl
  rw [interveningSleeps, h1, countSleeps_cadenceTrace]

theorem pollLoop_cadence (fetchFn : Nat → Operation) (k : Int) :
    ∀ (n start fuel : Nat) (op : Operation),
      op.done = false →
      (∀ m, start ≤ m → m < start + n → (fetchFn m).done = false) →
      (fetchFn (start + n)).done = true →
      n < fuel →
      pollLoop fetchFn k fuel op start =
        some (cadenceTrace fetchFn k start (n + 1), fetchFn (start + n)) := by
  intro n
  induction n with
  | zero =>
      intro start fuel op hop _ hdone hfuel
      obtain ⟨f, rfl⟩ : ∃ f, fuel = f + 1 := ⟨fuel - 1, by omega⟩
      rw [Nat.add_zero] at hdone
      simp only [pollLoop, hop, Bool.false_eq_true, if_neg]
      rw [pollLoop_done fetchFn k f (fetchFn start) (start + 1) hdone]
      rfl
  | succ m ih =>
      intro start fuel op hop hmid hdone hfuel
      obtain ⟨f, rfl⟩ : ∃ f, fuel = f + 1 := ⟨fuel - 1, by omega⟩
      have hstart : (fetchFn start).done = false := hmid start le_rfl (by omega)
      have harith : start + 1 + m = start + (m + 1) := by omega
      have hrec := ih (start + 1) f (fetchFn start) hstart
        (fun q h1 h2 => hmid q (by omega) (by omega))
        (by rw [harith]; exact hdone) (by omega)
      simp only [pollLoop, hop, Bool.false_eq_true, if_neg]
      rw [hrec, harith]
      rfl

/-- C7: against a service that reports done = true only on the Nth status
fetch, the poller issues exactly N fetches, sleeps k seconds N times (one
delay per loop iteration, each iteration being exactly one sleep followed by
one fetch, as the literal cadence trace shows), N - 1 of those sleeps
intervening between fetches, every sleep lasting exactly k seconds. -/
theorem poll_cadence (fetchFn : Nat → Operation) (init : Operation) (k : Int)
    (N fuel : Nat) (hN : 1 ≤ N) (hinit : init.done = false)
    (hservice : ∀ m, (fetchFn m).done = decide (m + 1 = N))
    (hfuel : N ≤ fuel) :
    poll fetchFn init k fuel =
      some (cadenceTrace fetchFn k 0 N, fetchFn (N - 1)) ∧
    countFetches (cadenceTrace fetchFn k 0 N) = N ∧
    countSleeps (cadenceTrace fetchFn k 0 N) = N ∧
    interveningSleeps (cadenceTrace fetchFn k 0 N) = N - 1 ∧
    ∀ s : Int, PollEvent.sleep s ∈ cadenceTrace fetchFn k 0 N → s = k := by
  obtain ⟨n, rfl⟩ : ∃ n, N = n + 1 := ⟨N - 1, by omega⟩
  have hmain := pollLoop_cadence fetchFn k n 0 fuel init hinit
    (fun m h1 h2 => by
      rw [hservice m]
      simp only [decide_eq_false_iff_not]
      omega)
    (by rw [hservice (0 + n)]; simp)
    (by omega)
  rw [Nat.zero_add] at hmain
  refine ⟨?_, countFetches_cadenceTrace .., countSleeps_cadenceTrace .., ?_,
    fun s hs => sleep_mem_cadenceTrace fetchFn k (n + 1) 0 s hs⟩
  · unfold poll
    rw [hmain]
    rw [show n + 1 - 1 = n from by omega]
  · rw [interveningSleeps_cadenceTrace]
    omega

/-- Witness for C7 at N = 2, k = 3: two fetches, two sleeps of 3 seconds,
one intervening sleep. -/
theorem poll_cadence_witness :
    poll (fun m => { name := "op1", done := decide (m + 1 = 2) })
        { name := "op1", done := false } 3 2 =
      some (cadenceTrace (fun m => { name := "op1", done := decide (m + 1 = 2) }) 3 0 2,
        (fun m => ({ name := "op1", done := decide (m + 1 = 2) } : Operation)) (2 - 1)) ∧
    countFetches (cadenceTrace
      (fun m => { name := "op1", done := decide (m + 1 = 2) }) 3 0 2) = 2 ∧
    countSleeps (cadenceTrace
      (fun m => { name := "op1", done := decide (m + 1 = 2) }) 3 0 2) = 2 ∧
    interveningSleeps (cadenceTrace
      (fun m => { name := "op1", done := decide (m + 1 = 2) }) 3 0 2) = 2 - 1 ∧
    ∀ s : Int, PollEvent.sleep s ∈ cadenceTrace
      (fun m => { name := "op1", done := decide (m + 1 = 2) }) 3 0 2 → s = 3 :=
  poll_cadence (fun m => { name := "op1", done := decide (m + 1 = 2) })
    { name := "op1", done := false } 3 2 2 (by omega) rfl (fun m => rfl) (by omega)

/-- C8: when the service reports a terminal error (done = true with a
populated error field) on the Nth fetch, the poller terminates normally
(returns `some`, not the divergence value), and the returned snapshot is
exactly that fetched snapshot, its error carried inside the payload. -/
theorem poll_remote_error_returned (fetchFn : Nat → Operation)
    (init : Operation) (k : Int) (N fuel : Nat) (errMsg : String)
    (hN : 1 ≤ N) (hinit : init.done = false)
    (hbefore : ∀ m, m + 1 < N → (fetchFn m).done = false)
    (hdone : (fetchFn (N - 1)).done = true)
    (herr : (fetchFn (N - 1)).error = some errMsg)
    (hfuel : N ≤ fuel) :
    ∃ tr fin, poll fetchFn init k fuel = some (tr, fin) ∧
      fin = fetchFn (N - 1) ∧ fin.done = true ∧ fin.error = some errMsg := by
  obtain ⟨n, rfl⟩ : ∃ n, N = n + 1 := ⟨N - 1, by omega⟩
  rw [show n + 1 - 1 = n from by omega] at hdone herr
  have hmain := pollLoop_cadence fetchFn k n 0 fuel init hinit
    (fun m h1 h2 => hbefore m (by omega))
    (by rw [Nat.zero_add]; exact hdone)
    (by omega)
  rw [Nat.zero_add] at hmain
  refine ⟨cadenceTrace fetchFn k 0 (n + 1), fetchFn n, hmain, ?_, hdone, herr⟩
  rw [show n + 1 - 1 = n from by omega]

/-- Witness for C8: a service whose first fetch is done with a populated
error; the poller returns that snapshot normally after one fetch. -/
theorem poll_remote_error_returned_witness :
    ∃ tr fin,
      poll (fun _ => { name := "op1", done := true, error := some ("boom") })
        { name := "op1", done := false } 4 1 = some (tr, fin) ∧
      fin = ({ name := "op1", done := true, error := some ("boom") } : Operation) ∧
      fin.done = true ∧ fin.error = some ("boom") :=
  poll_remote_error_returned
    (fun _ => { name := "op1", done := true, error := some ("boom") })
    { name := "op1", done := false } 4 1 1 "boom" (by omega) rfl
    (fun m h => absurd h (by omega)) rfl rfl (by omega)

/-- A request body with its placement-constraints field blanked, used to
state that nothing else in the body depends on the zone patterns. -/
def eraseZones (b : RequestBody) : RequestBody :=
  { b with pipelineArgs :=
      { b.pipelineArgs with resources :=
          { b.pipelineArgs.resources with zones := [] } } }

/-- C5: the poller is invoked if and only if the poll interval is strictly
positive: on every run reaching submission, the poll session exists exactly
when `args.poll_interval > 0` and is absent whenever it is ≤ 0; the parsed
default for `--poll-interval` is 0. -/
theorem poll_opt_in (args : Args) (zoneSet : List String)
    (submit : RequestBody → Operation) (fetchFn : Nat → Operation)
    (fuel : Nat) (r : RunResult)
    (h : runScript args zoneSet submit fetchFn fuel = .ok r) :
    (r.pollResult.isSome = decide (0 < args.poll_interval)) ∧
    (r.pollResult = none ↔ args.poll_interval ≤ 0) ∧
    (parseArgs args.project args.disk_size args.zones args.output args.logging
      none).poll_interval = 0 := by
  unfold runScript at h
  cases hb : buildBody args zoneSet with
  | error e => rw [hb] at h; cases h
  | ok body =>
      rw [hb] at h
      have hr := Except.ok.inj h
      subst hr
      dsimp only
      by_cases hp : args.poll_interval > 0
      · rw [if_pos hp]
        have hp' : 0 < args.poll_interval := hp
        refine ⟨by simp [hp'], ?_, rfl⟩
        exact ⟨fun hcon => (by cases hcon), fun hle => absurd hp' (by omega)⟩
      · rw [if_neg hp]
        have hp' : args.poll_interval ≤ 0 := by omega
        refine ⟨?_, ⟨fun _ => hp', fun _ => rfl⟩, rfl⟩
        rw [Option.isSome_none]
        symm
        rw [decide_eq_false_iff_not]
        omega

/-- Witness for C5: a run with the default poll interval (0) succeeds and
contains no poll session. -/
theorem poll_opt_in_witness :
    ∃ r : RunResult,
      runScript (parseArgs ("proj") 10 ["*"] ("gs-out") ("gs-log") none)
        ["us-central1-a"] (fun _ => { name := "op1", done := false })
        (fun _ => { name := "op1", done := true }) 0 = .ok r ∧
      r.pollResult.isSome = decide
        (0 < (parseArgs ("proj") 10 ["*"] ("gs-out") ("gs-log") none).poll_interval) ∧
      (r.pollResult = none ↔
        (parseArgs ("proj") 10 ["*"] ("gs-out") ("gs-log") none).poll_interval ≤ 0) :=
  ⟨_, rfl,
    (poll_opt_in (parseArgs ("proj") 10 ["*"] ("gs-out") ("gs-log") none)
      ["us-central1-a"] (fun _ => { name := "op1", done := false })
      (fun _ => { name := "op1", done := true }) 0 _ rfl).1,
    (poll_opt_in (parseArgs ("proj") 10 ["*"] ("gs-out") ("gs-log") none)
      ["us-central1-a"] (fun _ => { name := "op1", done := false })
      (fun _ => { name := "op1", done := true }) 0 _ rfl).2.1⟩

/-- C9: on every run whose body construction succeeds, the placement
constraints `pipelineArgs.resources.zones` of the submitted body are exactly
the resolver's output on the user-supplied `--zones` patterns, and no other
field of the body depends on the zone patterns: two bodies built from
argument sets differing only in the zone patterns (and zone table) agree
everywhere once the zones field is blanked. -/
theorem zones_field_from_resolver (args : Args) (Z : List String)
    (b : RequestBody) (h : buildBody args Z = .ok b) :
    get_zones args.zones Z = .ok b.pipelineArgs.resources.zones ∧
    ∀ (zs' Z' : List String) (b' : RequestBody),
      buildBody { args with zones := zs' } Z' = .ok b' →
      eraseZones b' = eraseZones b := by
  unfold buildBody at h
  cases hg : get_zones args.zones Z with
  | error e => rw [hg] at h; cases h
  | ok zs =>
      rw [hg] at h
      have hb := Except.ok.inj h
      subst hb
      refine ⟨rfl, ?_⟩
      intro zs' Z' b' h'
      unfold buildBody at h'
      cases hg' : get_zones ({ args with zones := zs' } : Args).zones Z' with
      | error e => rw [hg'] at h'; cases h'
      | ok zs2 =>
          rw [hg'] at h'
          have hb' := Except.ok.inj h'
          subst hb'
          rfl

/-- Witness for C9 at zones patterns ["*"] against the zone table
["us-central1-a"]. -/
theorem zones_field_from_resolver_witness :
    ∃ b : RequestBody,
      buildBody (parseArgs ("proj") 10 ["*"] ("gs-out") ("gs-log") none)
        ["us-central1-a"] = .ok b ∧
      get_zones ["*"] ["us-central1-a"] = .ok b.pipelineArgs.resources.zones ∧
      ∀ (zs' Z' : List String) (b' : RequestBody),
        buildBody { parseArgs ("proj") 10 ["*"] ("gs-out") ("gs-log") none with
          zones := zs' } Z' = .ok b' →
        eraseZones b' = eraseZones b :=
  ⟨_, rfl,
    (zones_field_from_resolver
      (parseArgs ("proj") 10 ["*"] ("gs-out") ("gs-log") none)
      ["us-central1-a"] _ rfl).1,
    (zones_field_from_resolver
      (parseArgs ("proj") 10 ["*"] ("gs-out") ("gs-log") none)
      ["us-central1-a"] _ rfl).2⟩

/-- C10: the `inputs` map of every successfully built request body is the
same fixed constant of four hard-coded gs:// paths, independent of every
command-line argument: any two successful runs submit identical inputs. -/
theorem inputs_fixed_constant (args : Args) (Z : List String)
    (b : RequestBody) (h : buildBody args Z = .ok b) :
    b.pipelineArgs.inputs =
      [ ("normalbam", "gs://durable-tracer-294016-hatchetbucket/normal.bam"),
        ("normalbai", "gs://durable-tracer-294016-hatchetbucket/normal.bam.bai"),
        ("tumorbam", "gs://durable-tracer-294016-hatchetbucket/bulk_Noneclone1_09clone0_01normal.sorted.bam"),
        ("tumorbai", "gs://durable-tracer-294016-hatchetbucket/bulk_Noneclone1_09clone0_01normal.sorted.bam.bai") ] ∧
    ∀ (args' : Args) (Z' : List String) (b' : RequestBody),
      buildBody args' Z' = .ok b' →
      b'.pipelineArgs.inputs = b.pipelineArgs.inputs := by
  unfold buildBody at h
  cases hg : get_zones args.zones Z with
  | error e => rw [hg] at h; cases h
  | ok zs =>
      rw [hg] at h
      have hb := Except.ok.inj h
      subst hb
      refine ⟨rfl, ?_⟩
      intro args' Z' b' h'
      unfold buildBody at h'
      cases hg' : get_zones args'.zones Z' with
      | error e => rw [hg'] at h'; cases h'
      | ok zs2 =>
          rw [hg'] at h'
          have hb' := Except.ok.inj h'
          subst hb'
          rfl

/-- Witness for C10: a successful build whose inputs are the hard-coded
constant. -/
theorem inputs_fixed_constant_witness :
    ∃ b : RequestBody,
      buildBody (parseArgs ("proj") 10 ["*"] ("gs-out") ("gs-log") none)
        ["us-central1-a"] = .ok b ∧
      b.pipelineArgs.inputs =
        [ ("normalbam", "gs://durable-tracer-294016-hatchetbucket/normal.bam"),
          ("normalbai", "gs://durable-tracer-294016-hatchetbucket/normal.bam.bai"),
          ("tumorbam", "gs://durable-tracer-294016-hatchetbucket/bulk_Noneclone1_09clone0_01normal.sorted.bam"),
          ("tumorbai", "gs://durable-tracer-294016-hatchetbucket/bulk_Noneclone1_09clone0_01normal.sorted.bam.bai") ] :=
  ⟨_, rfl,
    (inputs_fixed_constant (parseArgs ("proj") 10 ["*"] ("gs-out") ("gs-log") none)
      ["us-central1-a"] _ rfl).1⟩
